import Mathlib

/-!
Verification of the MediSim3D procedural-heart core: the Shape Deformer
(per-vertex displacement loop run once at geometry construction), the Beat
Animator (per-tick scale computation driven by a bpm control), and the
hover-pick annotation policy.  The definitions below are shallow embeddings
of the corresponding JavaScript in src/simulations/heart/logic.js,
src/simulations/cardiac-cross-section/logic.js and
src/simulations/cardiac-cycle/logic.js.  Mesh-buffer arithmetic is modelled
over the rationals; the trigonometric animation state is modelled over the
reals with Real.sin standing for Math.sin.
-/

namespace MediSim

/-- A vertex of a mesh position buffer: one (x, y, z) triple, as read and
written through getX/getY/getZ/setX/setY on the position attribute. -/
structure Vec3 where
  x : ℚ
  y : ℚ
  z : ℚ
deriving DecidableEq, Repr

/-- The per-vertex displacement applied by the ventricle deformation loop
(heart and cross-section variants): `setX(i, x * (1.0 - y * taper))` and
`setY(i, y * stretch)`, z untouched.  The constants are parameters here;
both variants instantiate taper = 0.2 and stretch = 1.2. -/
def deformVertex (taper stretch : ℚ) (v : Vec3) : Vec3 :=
  { x := v.x * (1 - v.y * taper), y := v.y * stretch, z := v.z }

/-- One iteration of the in-place deformation loop at index `i`: read x and
y, compute `y_mod = y * stretch`, then `setX` followed by `setY` on the same
buffer.  Out-of-range indices leave the buffer unchanged. -/
def deformStep (taper stretch : ℚ) (buf : List Vec3) (i : ℕ) : List Vec3 :=
  match buf[i]? with
  | none => buf
  | some v =>
    let yMod := v.y * stretch
    let buf1 := buf.set i { v with x := v.x * (1 - v.y * taper) }
    match buf1[i]? with
    | none => buf1
    | some w => buf1.set i { w with y := yMod }

/-- The whole deformation loop `for (i = 0; i < posAttribute.count; i++)`,
mutating the position buffer in place index by index. -/
def deformSurface (taper stretch : ℚ) (buf : List Vec3) : List Vec3 :=
  (List.range buf.length).foldl (deformStep taper stretch) buf

/-- Taper constant of the heart and cross-section deformation loops. -/
def heartTaper : ℚ := 2 / 10

/-- Stretch constant of the heart and cross-section deformation loops. -/
def heartStretch : ℚ := 12 / 10

/-- A real-valued scale triple, standing for a THREE.Vector3 used as an
object's `scale`. -/
structure Vec3R where
  x : ℝ
  y : ℝ
  z : ℝ

/-- One tick of the heart / cross-section animator clock:
`time += 0.01 * (bpm / 60)`. -/
noncomputable def heartTick (bpm time : ℝ) : ℝ := time + 0.01 * (bpm / 60)

/-- The heart-variant clock update with the per-tick delta left as a
parameter (the source hard-codes delta = 0.01). -/
noncomputable def heartTickDelta (delta bpm time : ℝ) : ℝ :=
  time + delta * (bpm / 60)

/-- The phase angle fed to Math.sin in the heart / cross-section variants:
`time * 10`. -/
noncomputable def heartPhase (time : ℝ) : ℝ := time * 10

/-- The ventricle scale of the heart / cross-section variants:
`1 + Math.sin(time * 10) * 0.05`. -/
noncomputable def ventricleScale (time : ℝ) : ℝ :=
  1 + Real.sin (time * 10) * 0.05

/-- The x-component of the atrium scale in the heart / cross-section
variants: `1 + Math.sin(time * 10 + 1) * 0.03`. -/
noncomputable def atriumScaleX (time : ℝ) : ℝ :=
  1 + Real.sin (time * 10 + 1) * 0.03

/-- The full scale applied to the ventricle mesh each tick:
`ventricles.scale.set(scale, scale, scale)`. -/
noncomputable def heartVentricleScaleVec (time : ℝ) : Vec3R :=
  ⟨ventricleScale time, ventricleScale time, ventricleScale time⟩

/-- The full scale applied to the atrium mesh each tick:
`atrium.scale.set(1 + Math.sin(time * 10 + 1) * 0.03, 1, 1)`. -/
noncomputable def heartAtriumScaleVec (time : ℝ) : Vec3R :=
  ⟨atriumScaleX time, 1, 1⟩

/-- The cardiac-cycle beat speed: `(bpm / 60) * Math.PI * 2`. -/
noncomputable def beatSpeed (bpm : ℝ) : ℝ := bpm / 60 * Real.pi * 2

/-- One tick of the cardiac-cycle animator clock: `time += 0.01`
(independent of bpm). -/
noncomputable def cycleTick (time : ℝ) : ℝ := time + 0.01

/-- The cardiac-cycle phase angle fed to Math.sin:
`time * beatSpeed * 2`. -/
noncomputable def cyclePhase (bpm time : ℝ) : ℝ := time * beatSpeed bpm * 2

/-- The cardiac-cycle beat waveform:
`Math.sin(time * beatSpeed * 2)`. -/
noncomputable def beat (bpm time : ℝ) : ℝ := Real.sin (cyclePhase bpm time)

/-- The cardiac-cycle target contraction:
`1 + (beat > 0.5 ? 0.05 : 0)`. -/
noncomputable def contraction (bpm time : ℝ) : ℝ :=
  1 + (if beat bpm time > 0.5 then 0.05 else 0)

/-- One-component linear interpolation `current + (target - current) * alpha`
as performed by THREE.Vector3.lerp. -/
noncomputable def lerp1 (current target alpha : ℝ) : ℝ :=
  current + (target - current) * alpha

/-- Component-wise THREE.Vector3.lerp toward `target` with factor `alpha`. -/
noncomputable def lerpVec (v target : Vec3R) (alpha : ℝ) : Vec3R :=
  ⟨lerp1 v.x target.x alpha, lerp1 v.y target.y alpha, lerp1 v.z target.z alpha⟩

/-- Mutable cardiac-cycle animation state owned by the animation loop: the
simulated clock and the ventricle mesh's current scale. -/
structure CycleState where
  time : ℝ
  scale : Vec3R

/-- One cardiac-cycle animation tick acting on the ventricle: advance the
clock by 0.01, compute the beat and the target contraction from the updated
clock, and lerp the current scale toward the uniform target with factor
0.2. -/
noncomputable def cycleStep (bpm : ℝ) (st : CycleState) : CycleState :=
  let time := st.time + 0.01
  let c := contraction bpm time
  { time := time, scale := lerpVec st.scale ⟨c, c, c⟩ 0.2 }

/-- A mesh's scale at construction (THREE default: unit scale). -/
noncomputable def initialScale : Vec3R := ⟨1, 1, 1⟩

/-- The cardiac-cycle animation state after `n` ticks from start-up. -/
noncomputable def cycleRun (bpm : ℝ) (n : ℕ) : CycleState :=
  (cycleStep bpm)^[n] { time := 0, scale := initialScale }

/-- The (name, info) metadata carried in a heart part's userData. -/
structure PartMeta where
  name : String
  info : String
deriving DecidableEq

/-- The default prompt shown when nothing is hovered. -/
def defaultPrompt : String := "Hover over parts of the model to identify them."

/-- The UI state written to by the hover-detection branch of the animation
loop: cursor style, tooltip opacity and text, and the anatomy panel text. -/
structure DisplayState where
  cursorPointer : Bool
  tooltipOpacity : ℕ
  tooltipText : String
  anatomyText : String
deriving DecidableEq

/-- The hover-detection branch of the heart-variant animation loop.  Its
input is the raycaster's intersection list, closest hit first; each hit
carries `some` metadata when the object's userData has a name and `none`
otherwise.  Empty list: default cursor, tooltip hidden, default prompt.
Non-empty list whose first hit has metadata: pointer cursor, tooltip shown
with the part name, anatomy panel filled from the metadata.  First hit
without metadata: display left unchanged. -/
def hoverUpdate (intersects : List (Option PartMeta)) (d : DisplayState) :
    DisplayState :=
  match intersects with
  | [] =>
    { cursorPointer := false, tooltipOpacity := 0, tooltipText := d.tooltipText,
      anatomyText := defaultPrompt }
  | first :: _ =>
    match first with
    | some m =>
      { cursorPointer := true, tooltipOpacity := 1, tooltipText := m.name,
        anatomyText := "<strong>" ++ m.name ++ "</strong><br>" ++ m.info }
    | none => d

/-! ## Lemmas about the deformation loop -/

theorem length_deformStep (taper stretch : ℚ) (buf : List Vec3) (i : ℕ) :
    (deformStep taper stretch buf i).length = buf.length := by
  unfold deformStep
  cases h : buf[i]? with
  | none => rfl
  | some v =>
    simp only
    cases h1 : (buf.set i { v with x := v.x * (1 - v.y * taper) })[i]? with
    | none => simp [List.length_set]
    | some w => simp [List.length_set]

theorem deformStep_of_lt (taper stretch : ℚ) (buf : List Vec3) (i : ℕ)
    (h : i < buf.length) :
    deformStep taper stretch buf i =
      buf.set i (deformVertex taper stretch (buf.get ⟨i, h⟩)) := by
  unfold deformStep
  rw [List.getElem?_eq_getElem h]
  simp only
  rw [List.getElem?_set_self (by simpa using h)]
  simp [List.set_set, deformVertex]

theorem deformStep_of_ge (taper stretch : ℚ) (buf : List Vec3) (i : ℕ)
    (h : buf.length ≤ i) :
    deformStep taper stretch buf i = buf := by
  unfold deformStep
  rw [List.getElem?_eq_none h]

theorem length_foldl_deformStep (taper stretch : ℚ) :
    ∀ (idxs : List ℕ) (buf : List Vec3),
      (idxs.foldl (deformStep taper stretch) buf).length = buf.length
  | [], _ => rfl
  | i :: rest, buf => by
    rw [List.foldl_cons, length_foldl_deformStep taper stretch rest,
      length_deformStep]

theorem getElem?_foldl_range (taper stretch : ℚ) :
    ∀ (n : ℕ) (buf : List Vec3) (j : ℕ),
      ((List.range n).foldl (deformStep taper stretch) buf)[j]? =
        if j < n then (buf[j]?).map (deformVertex taper stretch)
        else buf[j]? := by
  intro n
  induction n with
  | zero => intro buf j; simp
  | succ k ih =>
    intro buf j
    rw [List.range_succ, List.foldl_append]
    simp only [List.foldl_cons, List.foldl_nil]
    by_cases hk : k < buf.length
    · have hklen : k < ((List.range k).foldl (deformStep taper stretch) buf).length := by
        rw [length_foldl_deformStep]; exact hk
      rw [deformStep_of_lt taper stretch _ k hklen]
      by_cases hjk : j = k
      · subst hjk
        rw [List.getElem?_set_self hklen, if_pos (Nat.lt_succ_self j)]
        have : ((List.range j).foldl (deformStep taper stretch) buf).get
            ⟨j, hklen⟩ = buf.get ⟨j, hk⟩ := by
          have h1 := ih buf j
          rw [if_neg (lt_irrefl j)] at h1
          have h2 : ((List.range j).foldl (deformStep taper stretch) buf)[j]? =
              some (((List.range j).foldl (deformStep taper stretch) buf).get
                ⟨j, hklen⟩) := by
            simp [List.getElem?_eq_getElem hklen]
          rw [h1, List.getElem?_eq_getElem hk] at h2
          simp at h2
          simp [h2]
        rw [this, List.getElem?_eq_getElem hk]
        rfl
      · rw [List.getElem?_set_ne (fun hkj => hjk hkj.symm), ih buf j]
        rcases Nat.lt_or_ge j k with hlt | hge
        · rw [if_pos hlt, if_pos (Nat.lt_succ_of_lt hlt)]
        · have hge' : ¬ j < k := Nat.not_lt.mpr hge
          have : ¬ j < k + 1 := by
            intro hcon
            exact hjk (Nat.le_antisymm (Nat.lt_succ_iff.mp hcon) hge)
          rw [if_neg hge', if_neg this]
    · have hk' : buf.length ≤ k := Nat.not_lt.mp hk
      rw [deformStep_of_ge taper stretch _ k
        (by rw [length_foldl_deformStep]; exact hk'), ih buf j]
      by_cases hj : j < k
      · rw [if_pos hj, if_pos (Nat.lt_succ_of_lt hj)]
      · rw [if_neg hj]
        by_cases hj1 : j < k + 1
        · have hjek : j = k := Nat.le_antisymm (Nat.lt_succ_iff.mp hj1) (Nat.not_lt.mp hj)
          subst hjek
          rw [if_pos hj1, List.getElem?_eq_none (le_trans hk' (le_refl j))]
          rfl
        · rw [if_neg hj1]

theorem deformSurface_eq_map (taper stretch : ℚ) (buf : List Vec3) :
    deformSurface taper stretch buf = buf.map (deformVertex taper stretch) := by
  apply List.ext_getElem?
  intro n
  rw [deformSurface, getElem?_foldl_range, List.getElem?_map]
  by_cases hn : n < buf.length
  · rw [if_pos hn]
  · rw [if_neg hn, List.getElem?_eq_none (Nat.not_lt.mp hn)]
    rfl

/-! ## Claim theorems -/

/-- C1: for every input vertex (x, y, z) and shape constants taper t and
stretch s, the Shape Deformer maps the vertex to exactly
(x*(1 - y*t), y*s, z) — x' computed from the original y, z unchanged — the
output surface has the same vertex count as the input, and output vertex i
corresponds to input vertex i. -/
theorem deformer_maps_vertices_exactly (t s : ℚ) (buf : List Vec3) :
    (deformSurface t s buf).length = buf.length ∧
    ∀ i : ℕ, (deformSurface t s buf)[i]? =
      (buf[i]?).map (fun v => Vec3.mk (v.x * (1 - v.y * t)) (v.y * s) v.z) := by
  rw [deformSurface_eq_map]
  refine ⟨List.length_map _ _, fun i => ?_⟩
  rw [List.getElem?_map]
  cases buf[i]? with
  | none => rfl
  | some v => rfl

/-- C8: the Shape Deformer is a pure deterministic function with no hidden
state — two applications to the same base surface with the same constants
yield identical outputs, and the in-place loop coincides with an independent
per-vertex map. -/
theorem deformer_pure_deterministic (t s : ℚ) (b1 b2 : List Vec3)
    (h : b1 = b2) :
    deformSurface t s b1 = deformSurface t s b2 ∧
    deformSurface t s b1 = b1.map (deformVertex t s) :=
  ⟨by rw [h], deformSurface_eq_map t s b1⟩

/-- Witness for C8 at a concrete one-vertex surface with the heart
constants. -/
theorem deformer_pure_deterministic_witness :
    ([⟨1, 2, 3⟩] : List Vec3) = [⟨1, 2, 3⟩] ∧
    (deformSurface heartTaper heartStretch [⟨1, 2, 3⟩] =
        deformSurface heartTaper heartStretch [⟨1, 2, 3⟩] ∧
      deformSurface heartTaper heartStretch [⟨1, 2, 3⟩] =
        ([⟨1, 2, 3⟩] : List Vec3).map (deformVertex heartTaper heartStretch)) :=
  ⟨rfl, deformer_pure_deterministic heartTaper heartStretch _ _ rfl⟩

/-- C2: for every bpm > 0 and elapsedTime >= 0, the ventricle scale factor
1 + 0.05 * sin(elapsedTime * 10) lies within [1 - 0.05, 1 + 0.05]. -/
theorem ventricle_scale_within_amplitude (bpm time : ℝ)
    (hb : 0 < bpm) (ht : 0 ≤ time) :
    1 - 0.05 ≤ ventricleScale time ∧ ventricleScale time ≤ 1 + 0.05 := by
  have h1 := Real.neg_one_le_sin (time * 10)
  have h2 := Real.sin_le_one (time * 10)
  unfold ventricleScale
  constructor <;> nlinarith

/-- Witness for C2 at bpm = 60, elapsedTime = 0. -/
theorem ventricle_scale_within_amplitude_witness :
    (0 : ℝ) < 60 ∧ (0 : ℝ) ≤ 0 ∧
      (1 - 0.05 ≤ ventricleScale 0 ∧ ventricleScale 0 ≤ 1 + 0.05) :=
  ⟨by norm_num, le_refl 0,
    ventricle_scale_within_amplitude 60 0 (by norm_num) (le_refl 0)⟩

/-- C3 counterexample: the cardiac-cycle variant advances elapsedTime by a
flat 0.01 per tick, so at bpm = 120 the advance is not
tickDelta * (bpm / 60) = 0.02. -/
theorem cycle_tick_not_bpm_scaled :
    cycleTick 0 ≠ 0 + 0.01 * ((120 : ℝ) / 60) := by
  unfold cycleTick
  norm_num

/-- C3 amended: in the heart and cross-section variants the clock advances
by tickDelta * (bpm / 60) each tick, so after n ticks it has accumulated
n * (0.01 * (bpm / 60)); the cardiac-cycle variant instead advances its
clock by a flat 0.01 per tick, independent of bpm. -/
theorem elapsed_time_advance (bpm time : ℝ) (n : ℕ) :
    heartTick bpm time = time + 0.01 * (bpm / 60) ∧
    (heartTick bpm)^[n] 0 = n * (0.01 * (bpm / 60)) ∧
    cycleTick time = time + 0.01 := by
  refine ⟨rfl, ?_, rfl⟩
  induction n with
  | zero => simp
  | succ k ih =>
    rw [Function.iterate_succ_apply', ih]
    unfold heartTick
    push_cast
    ring

/-- C4: in the lub-dub variant the target contraction is
1 + (sin(phase * 2) > 0.5 ? 0.05 : 0), and the applied ventricle scale is
moved toward the target by current += (target - current) * 0.2 rather than
set to it directly: after one tick the remaining gap to the target is the
old gap scaled by 1 - 0.2. -/
theorem lubdub_target_and_lerp (bpm : ℝ) (st : CycleState) :
    contraction bpm (st.time + 0.01) =
      1 + (if Real.sin ((st.time + 0.01) * beatSpeed bpm * 2) > 0.5
        then (0.05 : ℝ) else 0) ∧
    (cycleStep bpm st).scale.x =
      st.scale.x + (contraction bpm (st.time + 0.01) - st.scale.x) * 0.2 ∧
    (cycleStep bpm st).scale.y =
      st.scale.y + (contraction bpm (st.time + 0.01) - st.scale.y) * 0.2 ∧
    (cycleStep bpm st).scale.z =
      st.scale.z + (contraction bpm (st.time + 0.01) - st.scale.z) * 0.2 ∧
    (cycleStep bpm st).scale.x - contraction bpm (st.time + 0.01) =
      (st.scale.x - contraction bpm (st.time + 0.01)) * (1 - 0.2) := by
  refine ⟨rfl, rfl, rfl, rfl, ?_⟩
  simp only [cycleStep, lerpVec, lerp1]
  ring

/-- C5 counterexample: a bpm of 0 is used unclamped — the heart-variant
tick leaves elapsedTime exactly where it was, so the animation stalls. -/
theorem bpm_zero_not_clamped : heartTick 0 0 = 0 := by
  unfold heartTick
  norm_num

/-- C5 amended: no clamping of bpm occurs anywhere; with bpm = 0 the heart
and cross-section clocks stop advancing (the pulse stalls), the
cardiac-cycle clock still advances but its beat speed is 0 so the
contraction freezes at 1, and no division by bpm ever happens (bpm appears
only as the numerator of bpm / 60). -/
theorem bpm_zero_behavior (time : ℝ) :
    heartTick 0 time = time ∧
    beatSpeed 0 = 0 ∧
    contraction 0 time = 1 ∧
    time < cycleTick time := by
  refine ⟨?_, ?_, ?_, ?_⟩
  · unfold heartTick; ring
  · unfold beatSpeed; ring
  · unfold contraction beat cyclePhase beatSpeed
    have harg : time * (0 / 60 * Real.pi * 2) * 2 = 0 := by ring
    rw [harg, Real.sin_zero]
    norm_num
  · unfold cycleTick; norm_num

/-- C6 counterexample: at time 0 the atrium's applied scale has x-component
1 + 0.03 * sin 1 but y-component 1, so the contraction factor is not applied
to the atrium as a uniform scale on all three axes. -/
theorem atrium_scale_not_uniform :
    (heartAtriumScaleVec 0).x ≠ (heartAtriumScaleVec 0).y := by
  unfold heartAtriumScaleVec atriumScaleX
  simp only
  have h1 : (0 : ℝ) * 10 + 1 = 1 := by ring
  rw [h1]
  have hs : 0 < Real.sin 1 :=
    Real.sin_pos_of_pos_of_lt_pi (by norm_num) (by linarith [Real.pi_gt_three])
  intro hcon
  nlinarith

/-- C6 amended: the ventricle receives its contraction factor as a uniform
scale on all three axes; the atrium is scaled only on the x-axis (y and z
stay 1), its x-factor using amplitude 0.03 and a phase offset of 1 radian
relative to the ventricle's phase. -/
theorem scale_application_per_axis (time : ℝ) :
    (heartVentricleScaleVec time).x = (heartVentricleScaleVec time).y ∧
    (heartVentricleScaleVec time).y = (heartVentricleScaleVec time).z ∧
    (heartVentricleScaleVec time).x = 1 + Real.sin (heartPhase time) * 0.05 ∧
    (heartAtriumScaleVec time).x = 1 + Real.sin (heartPhase time + 1) * 0.03 ∧
    (heartAtriumScaleVec time).y = 1 ∧
    (heartAtriumScaleVec time).z = 1 := by
  unfold heartVentricleScaleVec heartAtriumScaleVec ventricleScale atriumScaleX
    heartPhase
  exact ⟨rfl, rfl, by ring, by ring, rfl, rfl⟩

/-- C7: for a fixed positive tick delta, the per-tick phase advance is a
strictly increasing function of bpm, in the heart / cross-section variant
and in the cardiac-cycle variant alike. -/
theorem phase_advance_strictly_increasing (d b1 b2 time : ℝ)
    (hd : 0 < d) (hb : b1 < b2) :
    heartPhase (heartTickDelta d b1 time) - heartPhase time <
      heartPhase (heartTickDelta d b2 time) - heartPhase time ∧
    cyclePhase b1 (time + d) - cyclePhase b1 time <
      cyclePhase b2 (time + d) - cyclePhase b2 time := by
  constructor
  · unfold heartPhase heartTickDelta
    nlinarith [mul_pos hd (sub_pos.mpr hb)]
  · unfold cyclePhase beatSpeed
    nlinarith [mul_pos (mul_pos hd Real.pi_pos) (sub_pos.mpr hb)]

/-- Witness for C7 at delta = 0.01, bpm 60 versus 120, time = 0. -/
theorem phase_advance_strictly_increasing_witness :
    (0 : ℝ) < 0.01 ∧ (60 : ℝ) < 120 ∧
    (heartPhase (heartTickDelta 0.01 60 0) - heartPhase 0 <
        heartPhase (heartTickDelta 0.01 120 0) - heartPhase 0 ∧
      cyclePhase 60 (0 + 0.01) - cyclePhase 60 0 <
        cyclePhase 120 (0 + 0.01) - cyclePhase 120 0) :=
  ⟨by norm_num, by norm_num,
    phase_advance_strictly_increasing 0.01 60 120 0 (by norm_num) (by norm_num)⟩

/-- C9: an empty intersection list produces the no-selection sentinel
(default cursor, hidden tooltip, default prompt) rather than any failure,
and a non-empty list whose closest hit carries metadata surfaces that
first hit's (name, info) pair. -/
theorem hover_pick_policy (d : DisplayState) (m : PartMeta)
    (rest : List (Option PartMeta)) :
    ((hoverUpdate [] d).cursorPointer = false ∧
      (hoverUpdate [] d).tooltipOpacity = 0 ∧
      (hoverUpdate [] d).anatomyText = defaultPrompt) ∧
    ((hoverUpdate (some m :: rest) d).cursorPointer = true ∧
      (hoverUpdate (some m :: rest) d).tooltipOpacity = 1 ∧
      (hoverUpdate (some m :: rest) d).tooltipText = m.name ∧
      (hoverUpdate (some m :: rest) d).anatomyText =
        "<strong>" ++ m.name ++ "</strong><br>" ++ m.info) :=
  ⟨⟨rfl, rfl, rfl⟩, ⟨rfl, rfl, rfl, rfl⟩⟩

theorem contraction_bounds (bpm time : ℝ) :
    1 ≤ contraction bpm time ∧ contraction bpm time ≤ 1.05 := by
  unfold contraction
  split <;> norm_num

theorem lerp1_bounds {s c : ℝ} (hs1 : 1 ≤ s) (hs2 : s ≤ 1.05)
    (hc1 : 1 ≤ c) (hc2 : c ≤ 1.05) :
    1 ≤ lerp1 s c 0.2 ∧ lerp1 s c 0.2 ≤ 1.05 := by
  unfold lerp1
  constructor <;> nlinarith

/-- C10: in the cardiac-cycle variant every component of the ventricle's
applied scale stays in [1, 1.05] on every tick — it starts at 1, each tick
lerps it with factor 0.2 toward a target of 1 or 1.05, and such a convex
combination cannot leave [1, 1.05]. -/
theorem cycle_scale_invariant (bpm : ℝ) (n : ℕ) :
    (1 ≤ (cycleRun bpm n).scale.x ∧ (cycleRun bpm n).scale.x ≤ 1.05) ∧
    (1 ≤ (cycleRun bpm n).scale.y ∧ (cycleRun bpm n).scale.y ≤ 1.05) ∧
    (1 ≤ (cycleRun bpm n).scale.z ∧ (cycleRun bpm n).scale.z ≤ 1.05) := by
  induction n with
  | zero =>
    norm_num [cycleRun, initialScale]
  | succ k ih =>
    have hstep : cycleRun bpm (k + 1) = cycleStep bpm (cycleRun bpm k) := by
      unfold cycleRun
      rw [Function.iterate_succ_apply']
    obtain ⟨⟨hx1, hx2⟩, ⟨hy1, hy2⟩, hz1, hz2⟩ := ih
    have hc := contraction_bounds bpm ((cycleRun bpm k).time + 0.01)
    rw [hstep]
    simp only [cycleStep, lerpVec]
    exact ⟨lerp1_bounds hx1 hx2 hc.1 hc.2, lerp1_bounds hy1 hy2 hc.1 hc.2,
      lerp1_bounds hz1 hz2 hc.1 hc.2⟩

end MediSim
